import Mathlib

/-!
GTUVERSE back-main: room membership handlers.

A shallow embedding of the two request handlers of `src/back-main/src/main.cpp`
that change room membership:

* `POST /rooms/<int>/users` (lines 407-470), here `postRoomUsers`;
* `DELETE /rooms/<int>/users/<int>` (lines 498-529), here `deleteRoomUser`.

The handlers are translated statement by statement. The three services they
call (`UserService`, `RoomService`, `RoomUserService`) are declared in headers
that are not part of the translated source; they are modelled from the design
document (sections 3, 4.1, 4.2 and 6) and each such definition says so.

Requests served one after another are modelled by `serve`, `serveAll` and
`serveEach`. For requests served at the same time, the POST handler is also cut
at its service calls (`stepJoin`) and run under explicit schedules
(`runSchedule`); run without interruption it is `postRoomUsers` again
(`runJoin_alone`).

All C++ `int` values are embedded as `Int`. The only arithmetic the handlers
perform is `room.getSize() + 1`, executed only after the guard
`room.getSize() >= room.getCapacity()` has failed, so the sum is at most the
capacity and cannot leave the range of `int` (see `size_succ_in_range`).
-/

namespace GTUVerse

/-! ## Data model -/

/-- A row of the user directory, with the fields `main.cpp` reads from it. -/
structure User where
  id : Int
  username : String
  email : String
  place : Int
deriving DecidableEq, Repr

/-- A room record, with the fields `main.cpp` reads through the getters
`getId`, `getName`, `getSize`, `getType`, `getCapacity`, `getUrl`, `getApi`. -/
structure Room where
  id : Int
  name : String
  size : Int
  type : String
  capacity : Int
  url : String
  api : String
deriving DecidableEq, Repr

/-- The setter `Room::setSize` used at line 449. -/
def Room.setSize (room : Room) (n : Int) : Room := { room with size := n }

/-- The state shared by the handlers: the user directory behind `userService`,
the room registry behind `roomService` and the membership store behind
`roomUserService`. A membership is a pair `(roomId, userId)`; the store has set
semantics (design document, section 3). -/
structure State where
  users : List User
  rooms : List Room
  members : Finset (Int × Int)
deriving DecidableEq

/-- A JSON scalar written into a response body. -/
inductive JVal where
  | str (s : String)
  | num (n : Int)
deriving DecidableEq, Repr

/-- A `crow::response`: status code and the fields assigned to its JSON body,
in assignment order. -/
structure Response where
  code : Nat
  body : List (String × JVal)
deriving DecidableEq, Repr

/-- The body `{"error": msg}` every failure branch of the handlers builds. -/
def errorResponse (code : Nat) (msg : String) : Response :=
  { code := code, body := [("error", JVal.str msg)] }

/-! ## Services -/

/-- Modelled from the spec: `UserService::getUserById` (user_service.h is not
in the translated source). Section 6: the user directory "exposes
`UserExists(id) -> bool`" and the core "never mutates user state"; the lookup
returns the row with the given identifier, if any. -/
def UserService.getUserById (s : State) (userId : Int) : Option User :=
  s.users.find? (fun u => u.id == userId)

/-- Modelled from the spec: `RoomService::getRoomById` (room_service.h is not in
the translated source). Section 4.2: `Get(roomId) -> Room option`. -/
def RoomService.getRoomById (s : State) (roomId : Int) : Option Room :=
  s.rooms.find? (fun r => r.id == roomId)

/-- Modelled from the spec: `RoomService::updateRoom` (room_service.h is not in
the translated source). Section 2: the registry "accepts occupancy updates";
the record passed in replaces the stored record that has its identifier. -/
def RoomService.updateRoom (s : State) (room : Room) : State :=
  { s with rooms := s.rooms.map (fun r => if r.id = room.id then room else r) }

/-- Modelled from the spec: `RoomUserService::isUserInRoom` (room_user_service.h
is not in the translated source). Section 4.1: `Exists(roomId, userId) -> bool`,
no side effects. -/
def RoomUserService.isUserInRoom (s : State) (roomId userId : Int) : Bool :=
  decide ((roomId, userId) ∈ s.members)

/-- Modelled from the spec: `RoomUserService::addUserToRoom` (room_user_service.h
is not in the translated source). Section 4.1: `Insert(roomId, userId) -> bool`
"returns false if the pair already exists (no-op, not an error); true if newly
inserted"; a pure set operation that does not touch the room registry. The
argument order `(userId, roomId)` is the one of the call at line 447. -/
def RoomUserService.addUserToRoom (s : State) (userId roomId : Int) : Bool × State :=
  if (roomId, userId) ∈ s.members then (false, s)
  else (true, { s with members := insert (roomId, userId) s.members })

/-- Modelled from the spec: `RoomUserService::removeUserFromRoom`
(room_user_service.h is not in the translated source). Section 4.1:
`Remove(roomId, userId) -> bool` "returns false if the pair did not exist; true
if removed"; a pure set operation that does not touch the room registry. -/
def RoomUserService.removeUserFromRoom (s : State) (roomId userId : Int) : Bool × State :=
  if (roomId, userId) ∈ s.members then
    (true, { s with members := s.members.erase (roomId, userId) })
  else (false, s)

/-! ## Handlers -/

/-- The handler of `POST /rooms/<int>/users`, lines 407-470.

`body` is the outcome of lines 410-411 (`json::parse(req.body)` and the
conversion of `j["user_id"]` to `int`): the user identifier, or the message of
the exception that the `catch` at line 465 turns into a 500 response. The
result of `addUserToRoom` is discarded, as at line 447; `currentSize` (lines
451-452) is computed and never used; the response reports the size of the local
copy `room` (line 461). -/
def postRoomUsers (s : State) (roomId : Int) (body : Except String Int) :
    Response × State :=
  match body with
  | .error what => (errorResponse 500 what, s)
  | .ok userId =>
    match UserService.getUserById s userId with
    | none => (errorResponse 404 "User not found", s)
    | some _ =>
      if RoomUserService.isUserInRoom s roomId userId then
        (errorResponse 409 "User is already in this room", s)
      else
        match RoomService.getRoomById s roomId with
        | none => (errorResponse 404 "Room not found", s)
        | some roomOpt =>
          let room := roomOpt
          if room.size ≥ room.capacity then
            (errorResponse 409 "Room is full", s)
          else
            let s1 := (RoomUserService.addUserToRoom s userId roomId).2
            let room := room.setSize (room.size + 1)
            let s2 := RoomService.updateRoom s1 room
            let updatedRoomOpt := RoomService.getRoomById s2 roomId
            let _currentSize : Int :=
              match updatedRoomOpt with
              | some updated => updated.size
              | none => 0
            ({ code := 201,
               body := [("message", JVal.str "User added to room"),
                        ("room_id", JVal.num roomId),
                        ("user_id", JVal.num userId),
                        ("current_size", JVal.num room.size)] }, s2)

/-- The handler of `DELETE /rooms/<int>/users/<int>`, lines 498-529. -/
def deleteRoomUser (s : State) (roomId userId : Int) : Response × State :=
  if !RoomUserService.isUserInRoom s roomId userId then
    (errorResponse 404 "User is not in this room", s)
  else
    let (success, s1) := RoomUserService.removeUserFromRoom s roomId userId
    if success then
      let room := RoomService.getRoomById s1 roomId
      ({ code := 200,
         body := [("message", JVal.str "User removed from room"),
                  ("room_id", JVal.num roomId),
                  ("user_id", JVal.num userId)] ++
                 (match room with
                  | some r => [("current_size", JVal.num r.size)]
                  | none => []) }, s1)
    else
      (errorResponse 500 "Failed to remove user from room", s1)

/-- A membership request: a Join (`POST /rooms/<roomId>/users`) with its parsed
body, or a Leave (`DELETE /rooms/<roomId>/users/<userId>`). -/
inductive Request where
  | join (roomId : Int) (body : Except String Int)
  | leave (roomId userId : Int)

/-- Serve one request to completion. -/
def serve (s : State) : Request → Response × State
  | .join roomId body => postRoomUsers s roomId body
  | .leave roomId userId => deleteRoomUser s roomId userId

/-- Serve a sequence of requests one after another, keeping the final state. -/
def serveAll (s : State) : List Request → State
  | [] => s
  | q :: qs => serveAll (serve s q).2 qs

/-! ## State predicates used by the properties -/

/-- The number of membership pairs of a room. -/
def memberCount (s : State) (roomId : Int) : Nat :=
  (s.members.filter (fun m => m.1 = roomId)).card

/-- The occupancy invariant: every room's stored size equals the number of
membership pairs for that room. -/
def OccupancyInv (s : State) : Prop :=
  ∀ r ∈ s.rooms, r.size = (memberCount s r.id : Int)

/-- The capacity bound: every room has size at most its capacity. -/
def CapacityInv (s : State) : Prop :=
  ∀ r ∈ s.rooms, r.size ≤ r.capacity

instance (s : State) : Decidable (OccupancyInv s) := by
  unfold OccupancyInv; infer_instance

instance (s : State) : Decidable (CapacityInv s) := by
  unfold CapacityInv; infer_instance

/-! ## Sample states -/

/-- A sample user. -/
def alice : User := { id := 7, username := "alice", email := "alice@gtu", place := 0 }

/-- A second sample user. -/
def bob : User := { id := 8, username := "bob", email := "bob@gtu", place := 0 }

/-- A sample room of capacity 2 holding one member. -/
def lobby : Room :=
  { id := 1, name := "lobby", size := 1, type := "pop", capacity := 2, url := "", api := "" }

/-- A sample room of capacity 1 holding one member: it is full. -/
def studio : Room :=
  { id := 2, name := "studio", size := 1, type := "jazz", capacity := 1, url := "", api := "" }

/-- Two users and two rooms; `alice` is the only member of each room. -/
def sampleState : State :=
  { users := [alice, bob], rooms := [lobby, studio], members := {(1, 7), (2, 7)} }

/-- A state whose membership store still holds a pair of room 3, a room the
registry does not hold. -/
def orphanState : State :=
  { users := [alice, bob], rooms := [lobby], members := {(1, 7), (3, 7)} }

/-- A third sample user. -/
def carol : User := { id := 9, username := "carol", email := "carol@gtu", place := 0 }

/-- An empty room of capacity 2. -/
def hall : Room :=
  { id := 4, name := "hall", size := 0, type := "rock", capacity := 2, url := "", api := "" }

/-- Scenario A of the design document: three users, one empty room of
capacity 2. -/
def hallState : State := { users := [alice, bob, carol], rooms := [hall], members := ∅ }

/-! ## Runs of requests -/

/-- The 201 response of lines 457-463, reporting `size` as `current_size`. -/
def joinedResponse (roomId userId size : Int) : Response :=
  { code := 201,
    body := [("message", JVal.str "User added to room"),
             ("room_id", JVal.num roomId),
             ("user_id", JVal.num userId),
             ("current_size", JVal.num size)] }

/-- Serve a sequence of requests one after another, keeping every response and
the final state. -/
def serveEach (s : State) : List Request → List Response × State
  | [] => ([], s)
  | q :: qs => ((serve s q).1 :: (serveEach (serve s q).2 qs).1,
                (serveEach (serve s q).2 qs).2)

/-- The Join requests of the users `us` for the room `roomId`, in order. -/
def joinsOf (roomId : Int) (us : List Int) : List Request :=
  us.map (fun u => Request.join roomId (.ok u))

/-- What a request may change, relative to the pair `(r, u)` it names: every
room other than `r` reads back as before; room `r` reads back with the same
identifier, name, type, capacity, url and api; the users are the same; every
pair other than `(r, u)` is stored after exactly when it was before. -/
def Frame (s t : State) (r u : Int) : Prop :=
  (∀ j, j ≠ r → RoomService.getRoomById t j = RoomService.getRoomById s j) ∧
  (RoomService.getRoomById t r).map
      (fun x => (x.id, x.name, x.type, x.capacity, x.url, x.api)) =
    (RoomService.getRoomById s r).map
      (fun x => (x.id, x.name, x.type, x.capacity, x.url, x.api)) ∧
  t.users = s.users ∧
  (∀ p, p ≠ (r, u) → (p ∈ t.members ↔ p ∈ s.members))

/-! ## Interleaved Joins

`main.cpp` line 841 runs the application with `.multithreaded()`, and the POST
handler takes no lock: between two of its service calls another invocation of
the handler may run. The handler is cut here at its service calls; each call is
one indivisible step on the shared state (the most a self-contained service
call can guarantee), everything else is local to the invocation. -/

/-- Where an invocation of the POST handler stands: the service call it is about
to make, with the local copy `room` it holds, or the response it returned. -/
inductive JoinPc where
  | atUserCheck
  | atMemberCheck
  | atRoomRead
  | atInsert (room : Room)
  | atUpdate (room : Room)
  | atReread (room : Room)
  | finished (resp : Response)
deriving DecidableEq

/-- One invocation of the POST handler with a parsed body: the `roomId` of the
route, the `userId` of the body and the point it has reached. -/
structure JoinThread where
  roomId : Int
  userId : Int
  pc : JoinPc
deriving DecidableEq

/-- A fresh invocation, about to run line 414. -/
def JoinThread.start (roomId userId : Int) : JoinThread :=
  { roomId := roomId, userId := userId, pc := JoinPc.atUserCheck }

/-- One step of an invocation of the POST handler:
* `atUserCheck`: lines 414-419;
* `atMemberCheck`: lines 422-426;
* `atRoomRead`: lines 429-443, the read of the room and the two guards on the
  local copy;
* `atInsert`: line 447, the result of `addUserToRoom` discarded, then the local
  `setSize` of line 449;
* `atUpdate`: line 450;
* `atReread`: lines 451-463, the unused read and the 201 response built from the
  local copy. -/
def stepJoin (s : State) (t : JoinThread) : JoinThread × State :=
  match t.pc with
  | .atUserCheck =>
    match UserService.getUserById s t.userId with
    | none => ({ t with pc := .finished (errorResponse 404 "User not found") }, s)
    | some _ => ({ t with pc := .atMemberCheck }, s)
  | .atMemberCheck =>
    if RoomUserService.isUserInRoom s t.roomId t.userId then
      ({ t with pc := .finished (errorResponse 409 "User is already in this room") }, s)
    else ({ t with pc := .atRoomRead }, s)
  | .atRoomRead =>
    match RoomService.getRoomById s t.roomId with
    | none => ({ t with pc := .finished (errorResponse 404 "Room not found") }, s)
    | some room =>
      if room.size ≥ room.capacity then
        ({ t with pc := .finished (errorResponse 409 "Room is full") }, s)
      else ({ t with pc := .atInsert room }, s)
  | .atInsert room =>
    ({ t with pc := .atUpdate (room.setSize (room.size + 1)) },
     (RoomUserService.addUserToRoom s t.userId t.roomId).2)
  | .atUpdate room => ({ t with pc := .atReread room }, RoomService.updateRoom s room)
  | .atReread room =>
    ({ t with pc := .finished (joinedResponse t.roomId t.userId room.size) }, s)
  | .finished _ => (t, s)

/-- Run one invocation for `n` steps with nothing in between. -/
def runJoin (s : State) (t : JoinThread) : Nat → JoinThread × State
  | 0 => (t, s)
  | n + 1 => runJoin (stepJoin s t).2 (stepJoin s t).1 n

/-- Let the invocation at position `i` of the pool take one step. -/
def stepAt (s : State) : List JoinThread → Nat → List JoinThread × State
  | [], _ => ([], s)
  | t :: ts, 0 => ((stepJoin s t).1 :: ts, (stepJoin s t).2)
  | t :: ts, i + 1 => (t :: (stepAt s ts i).1, (stepAt s ts i).2)

/-- Run a pool of invocations under a schedule: the list of the positions that
take a step, in order. -/
def runSchedule (s : State) (ts : List JoinThread) : List Nat → List JoinThread × State
  | [] => (ts, s)
  | i :: is => runSchedule (stepAt s ts i).2 (stepAt s ts i).1 is

/-- The schedule that serves `n` invocations one after another, starting with
position `i`: each takes its six steps before the next one starts. -/
def serialFrom (i : Nat) : Nat → List Nat
  | 0 => []
  | n + 1 => List.replicate 6 i ++ serialFrom (i + 1) n

/-- The responses of the invocations of a pool that have returned. -/
def answers (ts : List JoinThread) : List Response :=
  ts.filterMap (fun t => match t.pc with
    | .finished resp => some resp
    | _ => none)

/-- A room of capacity 1 with no member. -/
def booth : Room :=
  { id := 3, name := "booth", size := 0, type := "folk", capacity := 1, url := "", api := "" }

/-- Two users and the empty booth. -/
def boothState : State := { users := [alice, bob], rooms := [booth], members := ∅ }

/-- A schedule for two invocations in which both make their three reads
(lines 414-443) before either makes its two writes (lines 447-450). -/
def overlapSchedule : List Nat := [0, 0, 0, 1, 1, 1, 0, 0, 0, 1, 1, 1]

/-- A schedule for two invocations: the second makes its user and membership
checks (lines 414-426), the first then runs from start to end, and the second
resumes at its room read (line 429). -/
def resumeSchedule : List Nat := [1, 1, 0, 0, 0, 0, 0, 0, 1]

/-! ## Lemmas about the services -/

/-- The range of a 32-bit C++ `int`. -/
def InIntRange (n : Int) : Prop := -2147483648 ≤ n ∧ n ≤ 2147483647

/-- Line 449 cannot overflow: it runs only when the guard of line 439 failed. -/
theorem size_succ_in_range (room : Room) (hs : InIntRange room.size)
    (hc : InIntRange room.capacity) (hguard : ¬ room.size ≥ room.capacity) :
    InIntRange (room.size + 1) := by
  unfold InIntRange at *
  omega

/-- A room found by identifier is a stored room. -/
theorem getRoomById_mem {s : State} {roomId : Int} {room : Room}
    (h : RoomService.getRoomById s roomId = some room) : room ∈ s.rooms := by
  unfold RoomService.getRoomById at h
  exact List.mem_of_find?_eq_some h

/-- A room found by identifier carries that identifier. -/
theorem getRoomById_id {s : State} {roomId : Int} {room : Room}
    (h : RoomService.getRoomById s roomId = some room) : room.id = roomId := by
  unfold RoomService.getRoomById at h
  have := List.find?_some h
  simpa using this

/-- Looking a room up in a row list where the rows of identifier `x.id` have
been overwritten by `x`. -/
theorem find_overwrite (x : Room) (j : Int) (l : List Room) :
    (l.map (fun r => if r.id = x.id then x else r)).find? (fun r => r.id == j) =
      if j = x.id then (l.find? (fun r => r.id == j)).map (fun _ => x)
      else l.find? (fun r => r.id == j) := by
  induction l with
  | nil => simp
  | cons a l ih =>
    rw [List.map_cons, List.find?_cons, List.find?_cons, ih]
    by_cases ha : a.id = x.id
    · by_cases hj : j = x.id
      · subst hj
        simp [ha]
      · have hxj : (x.id == j) = false := by
          simp only [beq_eq_false_iff_ne, ne_eq]
          exact fun h => hj h.symm
        have haj : (a.id == j) = false := by
          simp only [beq_eq_false_iff_ne, ne_eq, ha]
          exact fun h => hj h.symm
        simp only [ha, if_true, hxj, haj, hj, if_false]
    · by_cases haj : a.id = j
      · have hj : ¬ j = x.id := fun h => ha (haj.trans h)
        have hb : (a.id == j) = true := by simp [haj]
        simp only [ha, if_false, hb, hj]
      · have hb : (a.id == j) = false := by
          simp only [beq_eq_false_iff_ne, ne_eq]
          exact haj
        simp only [ha, if_false, hb]

/-- Reading a room back after `updateRoom`. -/
theorem getRoomById_updateRoom (s : State) (room : Room) (j : Int) :
    RoomService.getRoomById (RoomService.updateRoom s room) j =
      if j = room.id then (RoomService.getRoomById s j).map (fun _ => room)
      else RoomService.getRoomById s j := by
  unfold RoomService.getRoomById RoomService.updateRoom
  exact find_overwrite room j s.rooms

/-- Inserting a pair of room `a` raises the count of `a` by one and leaves the
count of every other room alone. -/
theorem card_filter_insert (m : Finset (Int × Int)) (a u j : Int) (h : (a, u) ∉ m) :
    ((insert (a, u) m).filter (fun p => p.1 = j)).card =
      (m.filter (fun p => p.1 = j)).card + (if j = a then 1 else 0) := by
  by_cases hj : j = a
  · subst hj
    rw [Finset.filter_insert]
    simp only [if_true]
    rw [Finset.card_insert_of_not_mem]
    simp [h]
  · have hne : ¬ a = j := fun e => hj e.symm
    rw [Finset.filter_insert]
    simp [hj, hne]

/-- Erasing a stored pair of room `a` lowers the count of `a` by one and leaves
the count of every other room alone. -/
theorem card_filter_erase (m : Finset (Int × Int)) (a u j : Int) (h : (a, u) ∈ m) :
    ((m.erase (a, u)).filter (fun p => p.1 = j)).card + (if j = a then 1 else 0) =
      (m.filter (fun p => p.1 = j)).card := by
  by_cases hj : j = a
  · subst hj
    rw [Finset.filter_erase]
    simp only [if_true]
    rw [Finset.card_erase_add_one]
    simp [h]
  · have hne : ¬ a = j := fun e => hj e.symm
    rw [Finset.filter_erase, Finset.erase_eq_of_not_mem]
    · simp [hj]
    · simp [hne]

/-! ## The branches of the handlers -/

/-- Lines 465-469: a body that does not parse gives 500 and changes nothing. -/
theorem postRoomUsers_unparsed (s : State) (roomId : Int) (what : String) :
    postRoomUsers s roomId (.error what) = (errorResponse 500 what, s) := rfl

/-- Lines 413-419. -/
theorem postRoomUsers_user_missing (s : State) (roomId userId : Int)
    (hu : UserService.getUserById s userId = none) :
    postRoomUsers s roomId (.ok userId) = (errorResponse 404 "User not found", s) := by
  simp [postRoomUsers, hu]

/-- Lines 421-426. -/
theorem postRoomUsers_member (s : State) (roomId userId : Int)
    (hu : (UserService.getUserById s userId).isSome)
    (hm : (roomId, userId) ∈ s.members) :
    postRoomUsers s roomId (.ok userId) =
      (errorResponse 409 "User is already in this room", s) := by
  obtain ⟨u, hu⟩ := Option.isSome_iff_exists.mp hu
  simp [postRoomUsers, hu, RoomUserService.isUserInRoom, hm]

/-- Lines 428-434. -/
theorem postRoomUsers_room_missing (s : State) (roomId userId : Int)
    (hu : (UserService.getUserById s userId).isSome)
    (hm : (roomId, userId) ∉ s.members)
    (hr : RoomService.getRoomById s roomId = none) :
    postRoomUsers s roomId (.ok userId) = (errorResponse 404 "Room not found", s) := by
  obtain ⟨u, hu⟩ := Option.isSome_iff_exists.mp hu
  simp [postRoomUsers, hu, RoomUserService.isUserInRoom, hm, hr]

/-- Lines 436-443. -/
theorem postRoomUsers_full (s : State) (roomId userId : Int) (room : Room)
    (hu : (UserService.getUserById s userId).isSome)
    (hm : (roomId, userId) ∉ s.members)
    (hr : RoomService.getRoomById s roomId = some room)
    (hfull : room.size ≥ room.capacity) :
    postRoomUsers s roomId (.ok userId) = (errorResponse 409 "Room is full", s) := by
  obtain ⟨u, hu⟩ := Option.isSome_iff_exists.mp hu
  simp [postRoomUsers, hu, RoomUserService.isUserInRoom, hm, hr, hfull]

/-- Lines 445-463: the response and the state of an admitted Join. -/
theorem postRoomUsers_joined (s : State) (roomId userId : Int) (room : Room)
    (hu : (UserService.getUserById s userId).isSome)
    (hm : (roomId, userId) ∉ s.members)
    (hr : RoomService.getRoomById s roomId = some room)
    (hlt : room.size < room.capacity) :
    postRoomUsers s roomId (.ok userId) =
      ({ code := 201,
         body := [("message", JVal.str "User added to room"),
                  ("room_id", JVal.num roomId),
                  ("user_id", JVal.num userId),
                  ("current_size", JVal.num (room.size + 1))] },
       { users := s.users,
         rooms := s.rooms.map
           (fun r => if r.id = room.id then room.setSize (room.size + 1) else r),
         members := insert (roomId, userId) s.members }) := by
  obtain ⟨u, hu⟩ := Option.isSome_iff_exists.mp hu
  have hge : ¬ room.capacity ≤ room.size := not_le.mpr hlt
  simp [postRoomUsers, hu, RoomUserService.isUserInRoom, hm, hr, hge,
    RoomUserService.addUserToRoom, RoomService.updateRoom, Room.setSize]

/-- Lines 500-506. -/
theorem deleteRoomUser_not_member (s : State) (roomId userId : Int)
    (hm : (roomId, userId) ∉ s.members) :
    deleteRoomUser s roomId userId = (errorResponse 404 "User is not in this room", s) := by
  simp [deleteRoomUser, RoomUserService.isUserInRoom, hm]

/-- Lines 508-518: the response and the state of a Leave by a member. The room
registry is not written. -/
theorem deleteRoomUser_member (s : State) (roomId userId : Int)
    (hm : (roomId, userId) ∈ s.members) :
    deleteRoomUser s roomId userId =
      ({ code := 200,
         body := [("message", JVal.str "User removed from room"),
                  ("room_id", JVal.num roomId),
                  ("user_id", JVal.num userId)] ++
                 (match RoomService.getRoomById s roomId with
                  | some r => [("current_size", JVal.num r.size)]
                  | none => []) },
       { users := s.users, rooms := s.rooms,
         members := s.members.erase (roomId, userId) }) := by
  simp [deleteRoomUser, RoomUserService.isUserInRoom, hm,
    RoomUserService.removeUserFromRoom, RoomService.getRoomById]

/-- Neither handler writes the user directory. -/
theorem serve_users (s : State) (q : Request) : (serve s q).2.users = s.users := by
  cases q with
  | join roomId body =>
    cases body with
    | error what => rfl
    | ok userId =>
      simp only [serve, postRoomUsers]
      split
      · rfl
      · split
        · rfl
        · split
          · rfl
          · split
            · rfl
            · simp [RoomService.updateRoom, RoomUserService.addUserToRoom]
              split <;> rfl
  | leave roomId userId =>
    by_cases hm : (roomId, userId) ∈ s.members
    · simp [serve, deleteRoomUser_member s roomId userId hm]
    · simp [serve, deleteRoomUser_not_member s roomId userId hm]

/-- A Join either changes nothing or is admitted through lines 445-463. -/
theorem postRoomUsers_cases (s : State) (roomId : Int) (body : Except String Int) :
    (postRoomUsers s roomId body).2 = s ∨
    ∃ userId room, body = .ok userId ∧ (UserService.getUserById s userId).isSome ∧
      (roomId, userId) ∉ s.members ∧ RoomService.getRoomById s roomId = some room ∧
      room.size < room.capacity := by
  cases body with
  | error what => exact Or.inl rfl
  | ok userId =>
    rcases Option.eq_none_or_eq_some (UserService.getUserById s userId) with hu | ⟨u, hu⟩
    · exact Or.inl (by rw [postRoomUsers_user_missing s roomId userId hu])
    · have hu' : (UserService.getUserById s userId).isSome := by simp [hu]
      by_cases hm : (roomId, userId) ∈ s.members
      · exact Or.inl (by rw [postRoomUsers_member s roomId userId hu' hm])
      · rcases Option.eq_none_or_eq_some (RoomService.getRoomById s roomId) with
          hr | ⟨room, hr⟩
        · exact Or.inl (by rw [postRoomUsers_room_missing s roomId userId hu' hm hr])
        · by_cases hfull : room.size ≥ room.capacity
          · exact Or.inl (by rw [postRoomUsers_full s roomId userId room hu' hm hr hfull])
          · exact Or.inr ⟨userId, room, rfl, hu', hm, hr, not_le.mp hfull⟩

/-! ## Invariants -/

/-- A Join keeps every room within its capacity. -/
theorem postRoomUsers_capacity (s : State) (roomId : Int) (body : Except String Int)
    (h : CapacityInv s) : CapacityInv (postRoomUsers s roomId body).2 := by
  rcases postRoomUsers_cases s roomId body with hs | ⟨userId, room, hb, hu, hm, hr, hlt⟩
  · rw [hs]; exact h
  · subst hb
    rw [postRoomUsers_joined s roomId userId room hu hm hr hlt]
    intro r hrmem
    simp only [List.mem_map] at hrmem
    obtain ⟨r0, hr0, hite⟩ := hrmem
    by_cases hid : r0.id = room.id
    · rw [if_pos hid] at hite
      subst hite
      simp only [Room.setSize]
      omega
    · rw [if_neg hid] at hite
      subst hite
      exact h r0 hr0

/-- A Leave does not write the room registry. -/
theorem deleteRoomUser_rooms (s : State) (roomId userId : Int) :
    (deleteRoomUser s roomId userId).2.rooms = s.rooms := by
  by_cases hm : (roomId, userId) ∈ s.members
  · rw [deleteRoomUser_member s roomId userId hm]
  · rw [deleteRoomUser_not_member s roomId userId hm]

/-- Every single request keeps every room within its capacity. -/
theorem serve_capacity (s : State) (q : Request) (h : CapacityInv s) :
    CapacityInv (serve s q).2 := by
  cases q with
  | join roomId body => exact postRoomUsers_capacity s roomId body h
  | leave roomId userId =>
    intro r hrmem
    simp only [serve, deleteRoomUser_rooms] at hrmem
    exact h r hrmem

/-- A Join keeps every room's stored size equal to its number of members. -/
theorem postRoomUsers_occupancy (s : State) (roomId : Int) (body : Except String Int)
    (h : OccupancyInv s) : OccupancyInv (postRoomUsers s roomId body).2 := by
  rcases postRoomUsers_cases s roomId body with hs | ⟨userId, room, hb, hu, hm, hr, hlt⟩
  · rw [hs]; exact h
  · subst hb
    rw [postRoomUsers_joined s roomId userId room hu hm hr hlt]
    have hroom := h room (getRoomById_mem hr)
    have hidr := getRoomById_id hr
    intro r hrmem
    simp only [List.mem_map] at hrmem
    obtain ⟨r0, hr0, hite⟩ := hrmem
    by_cases hid : r0.id = room.id
    · rw [if_pos hid] at hite
      subst hite
      simp only [Room.setSize, memberCount] at hroom ⊢
      rw [card_filter_insert s.members roomId userId room.id hm, if_pos hidr]
      rw [hroom]
      push_cast
      rfl
    · rw [if_neg hid] at hite
      subst hite
      have hne : ¬ r0.id = roomId := fun e => hid (e.trans hidr.symm)
      have := h r0 hr0
      simp only [memberCount] at this ⊢
      rw [card_filter_insert s.members roomId userId r0.id hm, if_neg hne, this]
      simp

/-- A Leave by a member of a stored room breaks the occupancy invariant: the
pair is erased and the stored size is left as it was. -/
theorem deleteRoomUser_occupancy_lost (s : State) (roomId userId : Int) (room : Room)
    (h : OccupancyInv s) (hm : (roomId, userId) ∈ s.members)
    (hr : RoomService.getRoomById s roomId = some room) :
    ¬ OccupancyInv (deleteRoomUser s roomId userId).2 := by
  intro h2
  rw [deleteRoomUser_member s roomId userId hm] at h2
  have h1 := h room (getRoomById_mem hr)
  have h3 := h2 room (getRoomById_mem hr)
  have hc := card_filter_erase s.members roomId userId room.id hm
  rw [if_pos (getRoomById_id hr)] at hc
  simp only [memberCount] at h1 h3
  omega

/-- Reading the room back after an admitted Join (the read of line 451). -/
theorem getRoomById_joined (s : State) (roomId userId : Int) (room : Room)
    (hu : (UserService.getUserById s userId).isSome)
    (hm : (roomId, userId) ∉ s.members)
    (hr : RoomService.getRoomById s roomId = some room)
    (hlt : room.size < room.capacity) :
    RoomService.getRoomById (postRoomUsers s roomId (.ok userId)).2 roomId =
      some (room.setSize (room.size + 1)) := by
  rw [postRoomUsers_joined s roomId userId room hu hm hr hlt]
  have hid : roomId = (room.setSize (room.size + 1)).id := (getRoomById_id hr).symm
  have hfind := find_overwrite (room.setSize (room.size + 1)) roomId s.rooms
  rw [if_pos hid] at hfind
  unfold RoomService.getRoomById at hr ⊢
  simp only [Room.setSize] at hfind ⊢
  rw [hfind, hr]
  rfl

/-- Join followed by Leave, in general: the pair is gone and the room keeps the
size the Join stored. -/
theorem join_then_leave (s : State) (roomId userId : Int) (room : Room)
    (hu : (UserService.getUserById s userId).isSome)
    (hm : (roomId, userId) ∉ s.members)
    (hr : RoomService.getRoomById s roomId = some room)
    (hlt : room.size < room.capacity) :
    (deleteRoomUser (postRoomUsers s roomId (.ok userId)).2 roomId userId).2.members =
      s.members ∧
    RoomService.getRoomById
        (deleteRoomUser (postRoomUsers s roomId (.ok userId)).2 roomId userId).2 roomId =
      some (room.setSize (room.size + 1)) := by
  have hget := getRoomById_joined s roomId userId room hu hm hr hlt
  have hmem : (roomId, userId) ∈ (postRoomUsers s roomId (.ok userId)).2.members := by
    rw [postRoomUsers_joined s roomId userId room hu hm hr hlt]
    exact Finset.mem_insert_self _ _
  have hmems : (postRoomUsers s roomId (.ok userId)).2.members =
      insert (roomId, userId) s.members := by
    rw [postRoomUsers_joined s roomId userId room hu hm hr hlt]
  rw [deleteRoomUser_member _ roomId userId hmem]
  refine ⟨?_, ?_⟩
  · simp only [hmems]
    exact Finset.erase_insert hm
  · unfold RoomService.getRoomById at hget ⊢
    exact hget

/-! ## The properties -/

/-- C1 (occupancy invariant). The property: from a state in which every room's
stored size equals its number of membership pairs, every completed Join or
Leave leaves such a state. It holds for Join (`postRoomUsers_occupancy`) and
fails for Leave: in `sampleState` the invariant holds, `alice` leaves the lobby
with status 200, and afterwards the lobby stores size 1 while it has no
member. -/
theorem occupancy_invariant_lost_by_leave :
    OccupancyInv sampleState ∧
    (deleteRoomUser sampleState 1 7).1.code = 200 ∧
    RoomService.getRoomById (deleteRoomUser sampleState 1 7).2 1 = some lobby ∧
    lobby.size = 1 ∧
    memberCount (deleteRoomUser sampleState 1 7).2 1 = 0 ∧
    ¬ OccupancyInv (deleteRoomUser sampleState 1 7).2 := by
  decide

/-- C2 (capacity bound). From a state in which every room has size at most its
capacity, every sequence of Join and Leave requests served one after another
leaves every room with size at most its capacity. -/
theorem capacity_bound_preserved (s : State) (qs : List Request) (h : CapacityInv s) :
    CapacityInv (serveAll s qs) := by
  induction qs generalizing s with
  | nil => exact h
  | cons q qs ih => exact ih (serve s q).2 (serve_capacity s q h)

/-- The capacity bound on a run that fills the lobby, is refused once, serves a
Leave and tries the full studio. -/
theorem capacity_bound_preserved_witness :
    CapacityInv sampleState ∧
    CapacityInv (serveAll sampleState
      [Request.join 1 (.ok 8), Request.join 1 (.ok 8), Request.leave 1 7,
       Request.join 2 (.ok 8), Request.join 1 (.error "parse error")]) :=
  ⟨by decide, capacity_bound_preserved sampleState _ (by decide)⟩

/-- C3 (successful Join). When the user exists, the room exists with size below
capacity and the pair is not stored, Join adds exactly that pair to the
membership store, stores size + 1 as the room's occupancy, and answers 201 with
`current_size` equal to that new occupancy. -/
theorem join_success (s : State) (roomId userId : Int) (room : Room)
    (hu : (UserService.getUserById s userId).isSome)
    (hr : RoomService.getRoomById s roomId = some room)
    (hlt : room.size < room.capacity)
    (hm : (roomId, userId) ∉ s.members) :
    (postRoomUsers s roomId (.ok userId)).2.members = insert (roomId, userId) s.members ∧
    RoomService.getRoomById (postRoomUsers s roomId (.ok userId)).2 roomId =
      some (room.setSize (room.size + 1)) ∧
    (room.setSize (room.size + 1)).size = room.size + 1 ∧
    (postRoomUsers s roomId (.ok userId)).1 =
      { code := 201,
        body := [("message", JVal.str "User added to room"),
                 ("room_id", JVal.num roomId),
                 ("user_id", JVal.num userId),
                 ("current_size", JVal.num (room.size + 1))] } := by
  refine ⟨?_, getRoomById_joined s roomId userId room hu hm hr hlt, rfl, ?_⟩
  · rw [postRoomUsers_joined s roomId userId room hu hm hr hlt]
  · rw [postRoomUsers_joined s roomId userId room hu hm hr hlt]

/-- In `sampleState`, `bob` joins the lobby (size 1 of 2). -/
theorem join_success_witness :
    ((UserService.getUserById sampleState 8).isSome ∧
      RoomService.getRoomById sampleState 1 = some lobby ∧
      lobby.size < lobby.capacity ∧ (1, 8) ∉ sampleState.members) ∧
    ((postRoomUsers sampleState 1 (.ok 8)).2.members = insert (1, 8) sampleState.members ∧
      RoomService.getRoomById (postRoomUsers sampleState 1 (.ok 8)).2 1 =
        some (lobby.setSize (lobby.size + 1)) ∧
      (lobby.setSize (lobby.size + 1)).size = lobby.size + 1 ∧
      (postRoomUsers sampleState 1 (.ok 8)).1 =
        { code := 201,
          body := [("message", JVal.str "User added to room"),
                   ("room_id", JVal.num 1),
                   ("user_id", JVal.num 8),
                   ("current_size", JVal.num (lobby.size + 1))] }) :=
  ⟨by decide, join_success sampleState 1 8 lobby (by decide) (by decide) (by decide)
    (by decide)⟩

/-- C4 (RoomFull). When the user exists, is not a member of the room, and the
room exists with size at least its capacity, Join answers 409 "Room is full"
and the state (membership store and every room record) is unchanged. -/
theorem join_room_full (s : State) (roomId userId : Int) (room : Room)
    (hu : (UserService.getUserById s userId).isSome)
    (hm : (roomId, userId) ∉ s.members)
    (hr : RoomService.getRoomById s roomId = some room)
    (hfull : room.size ≥ room.capacity) :
    (postRoomUsers s roomId (.ok userId)).1 = errorResponse 409 "Room is full" ∧
    (postRoomUsers s roomId (.ok userId)).2 = s := by
  rw [postRoomUsers_full s roomId userId room hu hm hr hfull]
  exact ⟨rfl, rfl⟩

/-- In `sampleState`, `bob` is refused by the full studio. -/
theorem join_room_full_witness :
    ((UserService.getUserById sampleState 8).isSome ∧ (2, 8) ∉ sampleState.members ∧
      RoomService.getRoomById sampleState 2 = some studio ∧
      studio.size ≥ studio.capacity) ∧
    ((postRoomUsers sampleState 2 (.ok 8)).1 = errorResponse 409 "Room is full" ∧
      (postRoomUsers sampleState 2 (.ok 8)).2 = sampleState) :=
  ⟨by decide, join_room_full sampleState 2 8 studio (by decide) (by decide) (by decide)
    (by decide)⟩

/-- C5 (AlreadyMember). When the user exists, the room exists and the pair is
already stored, Join answers 409 "User is already in this room" and the state
is unchanged: no second copy of the pair, no second increment. -/
theorem join_already_member (s : State) (roomId userId : Int) (room : Room)
    (hu : (UserService.getUserById s userId).isSome)
    (_hr : RoomService.getRoomById s roomId = some room)
    (hm : (roomId, userId) ∈ s.members) :
    (postRoomUsers s roomId (.ok userId)).1 =
      errorResponse 409 "User is already in this room" ∧
    (postRoomUsers s roomId (.ok userId)).2 = s := by
  rw [postRoomUsers_member s roomId userId hu hm]
  exact ⟨rfl, rfl⟩

/-- In `sampleState`, `alice` joins the lobby a second time. -/
theorem join_already_member_witness :
    ((UserService.getUserById sampleState 7).isSome ∧
      RoomService.getRoomById sampleState 1 = some lobby ∧ (1, 7) ∈ sampleState.members) ∧
    ((postRoomUsers sampleState 1 (.ok 7)).1 =
        errorResponse 409 "User is already in this room" ∧
      (postRoomUsers sampleState 1 (.ok 7)).2 = sampleState) :=
  ⟨by decide, join_already_member sampleState 1 7 lobby (by decide) (by decide)
    (by decide)⟩

/-- C6 (UserNotFound). For every state and every room id, Join with a user id
unknown to the user directory answers 404 "User not found" and the state (room
registry and membership store) is unchanged. -/
theorem join_user_not_found (s : State) (roomId userId : Int)
    (hu : UserService.getUserById s userId = none) :
    (postRoomUsers s roomId (.ok userId)).1 = errorResponse 404 "User not found" ∧
    (postRoomUsers s roomId (.ok userId)).2 = s := by
  rw [postRoomUsers_user_missing s roomId userId hu]
  exact ⟨rfl, rfl⟩

/-- In `sampleState`, the unknown user 99 tries to join the lobby. -/
theorem join_user_not_found_witness :
    UserService.getUserById sampleState 99 = none ∧
    ((postRoomUsers sampleState 1 (.ok 99)).1 = errorResponse 404 "User not found" ∧
      (postRoomUsers sampleState 1 (.ok 99)).2 = sampleState) :=
  ⟨by decide, join_user_not_found sampleState 1 99 (by decide)⟩

/-- C7 (RoomNotFound), counterexample. The property says that Join of an absent
room by an existing user answers 404 "Room not found" whatever the membership
store holds. In `orphanState` user 7 exists, room 3 is absent and the pair
(3, 7) is stored: the membership check of lines 421-426 runs before the room
lookup of lines 428-434 and the answer is 409 "User is already in this
room". -/
theorem join_room_not_found_counterexample :
    (UserService.getUserById orphanState 7).isSome ∧
    RoomService.getRoomById orphanState 3 = none ∧
    (3, 7) ∈ orphanState.members ∧
    (postRoomUsers orphanState 3 (.ok 7)).1 ≠ errorResponse 404 "Room not found" ∧
    (postRoomUsers orphanState 3 (.ok 7)).1.code = 409 ∧
    (postRoomUsers orphanState 3 (.ok 7)).1 =
      errorResponse 409 "User is already in this room" := by
  decide

/-- C7 (RoomNotFound), amended. When the user exists and the room id is absent
from the room registry, Join changes nothing; it answers 404 "Room not found"
when the pair is not in the membership store, and 409 "User is already in this
room" when it is. -/
theorem join_room_not_found (s : State) (roomId userId : Int)
    (hu : (UserService.getUserById s userId).isSome)
    (hr : RoomService.getRoomById s roomId = none) :
    (postRoomUsers s roomId (.ok userId)).2 = s ∧
    ((roomId, userId) ∉ s.members →
      (postRoomUsers s roomId (.ok userId)).1 = errorResponse 404 "Room not found") ∧
    ((roomId, userId) ∈ s.members →
      (postRoomUsers s roomId (.ok userId)).1 =
        errorResponse 409 "User is already in this room") := by
  refine ⟨?_, ?_, ?_⟩
  · by_cases hm : (roomId, userId) ∈ s.members
    · rw [postRoomUsers_member s roomId userId hu hm]
    · rw [postRoomUsers_room_missing s roomId userId hu hm hr]
  · intro hm
    rw [postRoomUsers_room_missing s roomId userId hu hm hr]
  · intro hm
    rw [postRoomUsers_member s roomId userId hu hm]

/-- In `sampleState`, `bob` tries to join room 5, which does not exist. -/
theorem join_room_not_found_witness :
    ((UserService.getUserById sampleState 8).isSome ∧
      RoomService.getRoomById sampleState 5 = none) ∧
    ((postRoomUsers sampleState 5 (.ok 8)).2 = sampleState ∧
      ((5, 8) ∉ sampleState.members →
        (postRoomUsers sampleState 5 (.ok 8)).1 = errorResponse 404 "Room not found") ∧
      ((5, 8) ∈ sampleState.members →
        (postRoomUsers sampleState 5 (.ok 8)).1 =
          errorResponse 409 "User is already in this room")) :=
  ⟨by decide, join_room_not_found sampleState 5 8 (by decide) (by decide)⟩

/-- C8 (NotMember). When the pair is not in the membership store, Leave answers
404 "User is not in this room" and the state (membership store and every room's
occupancy) is unchanged. -/
theorem leave_not_member (s : State) (roomId userId : Int)
    (hm : (roomId, userId) ∉ s.members) :
    (deleteRoomUser s roomId userId).1 = errorResponse 404 "User is not in this room" ∧
    (deleteRoomUser s roomId userId).2 = s := by
  rw [deleteRoomUser_not_member s roomId userId hm]
  exact ⟨rfl, rfl⟩

/-- In `sampleState`, `bob` leaves the lobby without having joined it. -/
theorem leave_not_member_witness :
    (1, 8) ∉ sampleState.members ∧
    ((deleteRoomUser sampleState 1 8).1 = errorResponse 404 "User is not in this room" ∧
      (deleteRoomUser sampleState 1 8).2 = sampleState) :=
  ⟨by decide, leave_not_member sampleState 1 8 (by decide)⟩

/-- C9 (successful Leave). The property: when the pair is stored and the room
exists with size at least 1, Leave removes exactly that pair, lowers the stored
occupancy by one and answers 200 with `current_size` equal to the old size
minus one. In `sampleState` the Leave of `alice` from the lobby (size 1)
removes the pair and answers 200, but `current_size` is 1 and the lobby still
stores size 1 (`deleteRoomUser_member` shows this for every state). -/
theorem leave_success_keeps_size :
    (1, 7) ∈ sampleState.members ∧
    RoomService.getRoomById sampleState 1 = some lobby ∧
    lobby.size = 1 ∧
    (deleteRoomUser sampleState 1 7).2.members = sampleState.members.erase (1, 7) ∧
    (deleteRoomUser sampleState 1 7).1 =
      { code := 200,
        body := [("message", JVal.str "User removed from room"),
                 ("room_id", JVal.num 1),
                 ("user_id", JVal.num 7),
                 ("current_size", JVal.num 1)] } ∧
    (RoomService.getRoomById (deleteRoomUser sampleState 1 7).2 1).map Room.size =
      some 1 := by
  decide

/-- C10 (round trip). The property: when Join(r, u) succeeds, Join(r, u) followed
by Leave(r, u) restores the occupancy of r and leaves (r, u) absent. In
`sampleState` the lobby has size 1; `bob` joins (201) and leaves (200); the pair
(1, 8) is absent afterwards but the lobby stores size 2 (`join_then_leave` shows
this for every state). -/
theorem round_trip_keeps_incremented_size :
    (RoomService.getRoomById sampleState 1).map Room.size = some 1 ∧
    (postRoomUsers sampleState 1 (.ok 8)).1.code = 201 ∧
    (deleteRoomUser (postRoomUsers sampleState 1 (.ok 8)).2 1 8).1.code = 200 ∧
    (1, 8) ∉ (deleteRoomUser (postRoomUsers sampleState 1 (.ok 8)).2 1 8).2.members ∧
    (RoomService.getRoomById
        (deleteRoomUser (postRoomUsers sampleState 1 (.ok 8)).2 1 8).2 1).map Room.size =
      some 2 := by
  decide

/-! ## Retry and frame -/

/-- A Join answers 201 only through lines 445-463. -/
theorem postRoomUsers_code_201 (s : State) (roomId userId : Int)
    (h : (postRoomUsers s roomId (.ok userId)).1.code = 201) :
    ∃ room, (UserService.getUserById s userId).isSome ∧ (roomId, userId) ∉ s.members ∧
      RoomService.getRoomById s roomId = some room ∧ room.size < room.capacity := by
  rcases Option.eq_none_or_eq_some (UserService.getUserById s userId) with hu | ⟨x, hu⟩
  · rw [postRoomUsers_user_missing s roomId userId hu] at h
    simp [errorResponse] at h
  · have hu' : (UserService.getUserById s userId).isSome := by simp [hu]
    by_cases hm : (roomId, userId) ∈ s.members
    · rw [postRoomUsers_member s roomId userId hu' hm] at h
      simp [errorResponse] at h
    · rcases Option.eq_none_or_eq_some (RoomService.getRoomById s roomId) with
        hr | ⟨room, hr⟩
      · rw [postRoomUsers_room_missing s roomId userId hu' hm hr] at h
        simp [errorResponse] at h
      · by_cases hfull : room.size ≥ room.capacity
        · rw [postRoomUsers_full s roomId userId room hu' hm hr hfull] at h
          simp [errorResponse] at h
        · exact ⟨room, hu', hm, hr, not_le.mp hfull⟩

/-- A Leave answers 200 only for a stored pair. -/
theorem deleteRoomUser_code_200 (s : State) (roomId userId : Int)
    (h : (deleteRoomUser s roomId userId).1.code = 200) : (roomId, userId) ∈ s.members := by
  by_contra hm
  rw [deleteRoomUser_not_member s roomId userId hm] at h
  simp [errorResponse] at h

/-- A Join does not change which users exist. -/
theorem getUserById_postRoomUsers (s : State) (roomId : Int) (body : Except String Int)
    (j : Int) :
    UserService.getUserById (postRoomUsers s roomId body).2 j =
      UserService.getUserById s j := by
  have h := serve_users s (Request.join roomId body)
  simp only [serve] at h
  unfold UserService.getUserById
  rw [h]

/-- Repeating an admitted Join. -/
theorem postRoomUsers_again (s : State) (roomId userId : Int)
    (h : (postRoomUsers s roomId (.ok userId)).1.code = 201) :
    postRoomUsers (postRoomUsers s roomId (.ok userId)).2 roomId (.ok userId) =
      (errorResponse 409 "User is already in this room",
       (postRoomUsers s roomId (.ok userId)).2) := by
  obtain ⟨room, hu, hm, hr, hlt⟩ := postRoomUsers_code_201 s roomId userId h
  apply postRoomUsers_member
  · rw [getUserById_postRoomUsers]
    exact hu
  · rw [postRoomUsers_joined s roomId userId room hu hm hr hlt]
    exact Finset.mem_insert_self _ _

/-- Repeating a Leave that answered 200. -/
theorem deleteRoomUser_again (s : State) (roomId userId : Int)
    (h : (deleteRoomUser s roomId userId).1.code = 200) :
    deleteRoomUser (deleteRoomUser s roomId userId).2 roomId userId =
      (errorResponse 404 "User is not in this room",
       (deleteRoomUser s roomId userId).2) := by
  have hm := deleteRoomUser_code_200 s roomId userId h
  apply deleteRoomUser_not_member
  rw [deleteRoomUser_member s roomId userId hm]
  exact Finset.not_mem_erase _ _

/-- Nothing changed is within every frame. -/
theorem Frame.same (s : State) (r u : Int) : Frame s s r u :=
  ⟨fun _ _ => rfl, rfl, rfl, fun _ _ => Iff.rfl⟩

/-- The frame of a Join. -/
theorem postRoomUsers_frame (s : State) (r u : Int) :
    Frame s (postRoomUsers s r (.ok u)).2 r u := by
  rcases postRoomUsers_cases s r (.ok u) with hs | ⟨u0, room, hb, hu, hm, hr, hlt⟩
  · rw [hs]
    exact Frame.same s r u
  · cases hb
    have hid := getRoomById_id hr
    have hback := getRoomById_joined s r u room hu hm hr hlt
    rw [postRoomUsers_joined s r u room hu hm hr hlt] at hback ⊢
    refine ⟨?_, ?_, rfl, ?_⟩
    · intro j hj
      have hne : ¬ j = (room.setSize (room.size + 1)).id := by
        simp only [Room.setSize, hid]
        exact hj
      have hfind := find_overwrite (room.setSize (room.size + 1)) j s.rooms
      rw [if_neg hne] at hfind
      simp only [Room.setSize] at hfind
      unfold RoomService.getRoomById
      exact hfind
    · rw [hback, hr]
      rfl
    · intro p hp
      simp only [Finset.mem_insert]
      constructor
      · rintro (h | h)
        · exact absurd h hp
        · exact h
      · exact fun h => Or.inr h

/-- The frame of a Leave. -/
theorem deleteRoomUser_frame (s : State) (r u : Int) :
    Frame s (deleteRoomUser s r u).2 r u := by
  by_cases hm : (r, u) ∈ s.members
  · rw [deleteRoomUser_member s r u hm]
    refine ⟨fun _ _ => rfl, rfl, rfl, ?_⟩
    intro p hp
    simp only [Finset.mem_erase]
    exact ⟨fun h => h.2, fun h => ⟨hp, h⟩⟩
  · rw [deleteRoomUser_not_member s r u hm]
    exact Frame.same s r u

/-! ## Filling a room -/

/-- The final state of `serveEach` is the one of `serveAll`. -/
theorem serveEach_state (qs : List Request) :
    ∀ s : State, (serveEach s qs).2 = serveAll s qs := by
  induction qs with
  | nil => intro s; rfl
  | cons q qs ih => intro s; exact ih (serve s q).2

/-- Joins of distinct existing non-members of a room that holds `n` of `c`: the
first `c - n` are admitted and report `n + 1`, `n + 2`, ... in order, all later
ones are refused as full, and the room ends with `min c (n + length)`. -/
theorem serveEach_fill (r : Int) (c : Nat) (us : List Int) :
    ∀ (s : State) (room : Room) (n : Nat),
      RoomService.getRoomById s r = some room → room.size = (n : Int) →
      room.capacity = (c : Int) → n ≤ c →
      (∀ u ∈ us, (r, u) ∉ s.members) → us.Nodup →
      (∀ u ∈ us, (UserService.getUserById s u).isSome) →
      (serveEach s (joinsOf r us)).1 =
        ((us.take (c - n)).enumFrom (n + 1)).map
            (fun p => joinedResponse r p.2 (p.1 : Int)) ++
          List.replicate (us.length - (c - n)) (errorResponse 409 "Room is full") ∧
      (RoomService.getRoomById (serveEach s (joinsOf r us)).2 r).map Room.size =
        some ((min c (n + us.length) : Nat) : Int) := by
  induction us with
  | nil =>
    intro s room n hr hsize _ hn _ _ _
    refine ⟨by simp [joinsOf, serveEach], ?_⟩
    simp only [joinsOf, List.map_nil, serveEach, hr, Option.map_some', List.length_nil,
      Nat.add_zero, hsize]
    rw [Nat.min_eq_right hn]
  | cons u rest ih =>
    intro s room n hr hsize hcap hn hnon hnodup hex
    have hu : (UserService.getUserById s u).isSome := hex u (List.mem_cons_self _ _)
    have hm : (r, u) ∉ s.members := hnon u (List.mem_cons_self _ _)
    have hnd := List.nodup_cons.mp hnodup
    simp only [joinsOf, List.map_cons, serveEach, serve]
    by_cases hlt : n < c
    · have hroom : room.size < room.capacity := by rw [hsize, hcap]; exact_mod_cast hlt
      have hresp : (postRoomUsers s r (.ok u)).1 = joinedResponse r u ((n + 1 : Nat) : Int) := by
        rw [postRoomUsers_joined s r u room hu hm hr hroom, hsize]
        simp [joinedResponse]
      have hback := getRoomById_joined s r u room hu hm hr hroom
      have hmem : (postRoomUsers s r (.ok u)).2.members = insert (r, u) s.members := by
        rw [postRoomUsers_joined s r u room hu hm hr hroom]
      have hnon2 : ∀ v ∈ rest, (r, v) ∉ (postRoomUsers s r (.ok u)).2.members := by
        intro v hv
        rw [hmem, Finset.mem_insert]
        rintro (h | h)
        · have : v = u := (Prod.mk.inj h).2
          exact hnd.1 (this ▸ hv)
        · exact hnon v (List.mem_cons_of_mem _ hv) h
      have hex2 : ∀ v ∈ rest,
          (UserService.getUserById (postRoomUsers s r (.ok u)).2 v).isSome := by
        intro v hv
        rw [getUserById_postRoomUsers]
        exact hex v (List.mem_cons_of_mem _ hv)
      have hsize2 : (room.setSize (room.size + 1)).size = ((n + 1 : Nat) : Int) := by
        simp [Room.setSize, hsize]
      have hcap2 : (room.setSize (room.size + 1)).capacity = (c : Int) := by
        simp [Room.setSize, hcap]
      have step := ih (postRoomUsers s r (.ok u)).2 (room.setSize (room.size + 1)) (n + 1)
        hback hsize2 hcap2 hlt hnon2 hnd.2 hex2
      simp only [joinsOf] at step
      obtain ⟨m, hm1⟩ : ∃ m, c - n = m + 1 := ⟨c - n - 1, by omega⟩
      have hm2 : c - (n + 1) = m := by omega
      rw [hm2] at step
      rw [hm1, List.take_succ_cons, List.enumFrom_cons, List.map_cons, hresp, step.1,
        step.2, List.length_cons, Nat.add_sub_add_right, List.cons_append]
      refine ⟨rfl, ?_⟩
      have : n + 1 + rest.length = n + (rest.length + 1) := by omega
      rw [this]
    · have hnc : n = c := by omega
      have hfull : room.size ≥ room.capacity := by rw [hsize, hcap, hnc]
      rw [postRoomUsers_full s r u room hu hm hr hfull]
      have step := ih s room n hr hsize hcap hn
        (fun v hv => hnon v (List.mem_cons_of_mem _ hv)) hnd.2
        (fun v hv => hex v (List.mem_cons_of_mem _ hv))
      simp only [joinsOf] at step
      have hz : c - n = 0 := by omega
      rw [hz] at step ⊢
      simp only [List.take_zero, List.enumFrom_nil, List.map_nil, List.nil_append,
        Nat.sub_zero] at step ⊢
      rw [step.1, step.2, List.length_cons, List.replicate_succ]
      refine ⟨rfl, ?_⟩
      have h1 : min c (n + rest.length) = c := by omega
      have h2 : min c (n + (rest.length + 1)) = c := by omega
      rw [h1, h2]

/-- Scenario A of the design document, evaluated: capacity 2, three Joins. -/
theorem scenarioA_run :
    (serveEach hallState (joinsOf 4 [7, 8, 9])).1 =
      [joinedResponse 4 7 1, joinedResponse 4 8 2, errorResponse 409 "Room is full"] ∧
    (serveEach hallState (joinsOf 4 [7, 8, 9])).2.rooms = [hall.setSize 2] ∧
    memberCount (serveEach hallState (joinsOf 4 [7, 8, 9])).2 4 = 2 ∧
    (4, 9) ∉ (serveEach hallState (joinsOf 4 [7, 8, 9])).2.members := by
  decide

/-! ## The properties, continued -/

/-- C11 (safe blind retry). For every state: if Join(r, u) succeeds (201), the
same Join repeated at once answers 409 "User is already in this room", and if
Leave(r, u) succeeds (200), the same Leave repeated at once answers 404 "User is
not in this room"; in both cases the repeated call returns the state it was
given. -/
theorem blind_retry (s : State) (r u : Int) :
    ((postRoomUsers s r (.ok u)).1.code = 201 →
      postRoomUsers (postRoomUsers s r (.ok u)).2 r (.ok u) =
        (errorResponse 409 "User is already in this room",
         (postRoomUsers s r (.ok u)).2)) ∧
    ((deleteRoomUser s r u).1.code = 200 →
      deleteRoomUser (deleteRoomUser s r u).2 r u =
        (errorResponse 404 "User is not in this room", (deleteRoomUser s r u).2)) :=
  ⟨postRoomUsers_again s r u, deleteRoomUser_again s r u⟩

/-- In `sampleState`, `bob` joins the lobby twice and `alice` leaves it twice. -/
theorem blind_retry_witness :
    ((postRoomUsers sampleState 1 (.ok 8)).1.code = 201 ∧
      (deleteRoomUser sampleState 1 7).1.code = 200) ∧
    (postRoomUsers (postRoomUsers sampleState 1 (.ok 8)).2 1 (.ok 8) =
        (errorResponse 409 "User is already in this room",
         (postRoomUsers sampleState 1 (.ok 8)).2) ∧
      deleteRoomUser (deleteRoomUser sampleState 1 7).2 1 7 =
        (errorResponse 404 "User is not in this room",
         (deleteRoomUser sampleState 1 7).2)) :=
  ⟨by decide, (blind_retry sampleState 1 8).1 (by decide),
    (blind_retry sampleState 1 7).2 (by decide)⟩

/-- C12 (filling a room). Starting from an existing room of capacity c with
occupancy 0 and no members, c + k Joins served one after another by pairwise
distinct existing users give c successes (201) reporting `current_size` 1, 2,
..., c in order, followed by k answers 409 "Room is full", and the room ends
with occupancy c. -/
theorem fill_room (s : State) (r : Int) (room : Room) (us : List Int) (c k : Nat)
    (hr : RoomService.getRoomById s r = some room)
    (hcap : room.capacity = (c : Int))
    (hsize : room.size = 0)
    (hempty : ∀ u, (r, u) ∉ s.members)
    (hdistinct : us.Nodup)
    (hexist : ∀ u ∈ us, (UserService.getUserById s u).isSome)
    (hlen : us.length = c + k) :
    (serveEach s (joinsOf r us)).1 =
      ((us.take c).enumFrom 1).map (fun p => joinedResponse r p.2 (p.1 : Int)) ++
        List.replicate k (errorResponse 409 "Room is full") ∧
    (us.take c).length = c ∧
    (RoomService.getRoomById (serveEach s (joinsOf r us)).2 r).map Room.size =
      some (c : Int) := by
  have h := serveEach_fill r c us s room 0 hr (by simpa using hsize) hcap (Nat.zero_le c)
    (fun u _ => hempty u) hdistinct hexist
  have hk : us.length - c = k := by omega
  have hmin : min c (0 + us.length) = c := by omega
  rw [Nat.sub_zero, hk, hmin] at h
  refine ⟨h.1, ?_, h.2⟩
  rw [List.length_take]
  omega

/-- Scenario A: capacity 2, one Join too many. -/
theorem fill_room_witness :
    (RoomService.getRoomById hallState 4 = some hall ∧ hall.capacity = ((2 : Nat) : Int) ∧
      hall.size = 0 ∧ [(7 : Int), 8, 9].Nodup ∧
      [(7 : Int), 8, 9].length = 2 + 1) ∧
    ((serveEach hallState (joinsOf 4 [7, 8, 9])).1 =
        ((([7, 8, 9] : List Int).take 2).enumFrom 1).map
            (fun p => joinedResponse 4 p.2 (p.1 : Int)) ++
          List.replicate 1 (errorResponse 409 "Room is full") ∧
      (([7, 8, 9] : List Int).take 2).length = 2 ∧
      (RoomService.getRoomById (serveEach hallState (joinsOf 4 [7, 8, 9])).2 4).map
          Room.size = some ((2 : Nat) : Int)) :=
  ⟨by decide,
   fill_room hallState 4 hall [7, 8, 9] 2 1 (by decide) (by decide) (by decide)
     (fun _ => Finset.not_mem_empty _) (by decide) (by decide) (by decide)⟩

/-- C15 (frame of Join and Leave). For every state and every Join(r, u) or
Leave(r, u), whatever its outcome: every room other than r keeps its record,
room r keeps its identifier, name, type, capacity, url and api, the users are
unchanged, and every pair other than (r, u) is stored after the request exactly
when it was before. -/
theorem join_leave_frame (s : State) (r u : Int) :
    Frame s (serve s (Request.join r (.ok u))).2 r u ∧
    Frame s (serve s (Request.leave r u)).2 r u :=
  ⟨postRoomUsers_frame s r u, deleteRoomUser_frame s r u⟩


/-! ## Interleaved Joins: the serial schedules -/

/-- An invocation that runs its six steps with nothing in between does what
`postRoomUsers` does. -/
theorem runJoin_alone (s : State) (r u : Int) :
    runJoin s (JoinThread.start r u) 6 =
      ({ roomId := r, userId := u, pc := JoinPc.finished (postRoomUsers s r (.ok u)).1 },
       (postRoomUsers s r (.ok u)).2) := by
  rcases Option.eq_none_or_eq_some (UserService.getUserById s u) with hu | ⟨x, hu⟩
  · rw [postRoomUsers_user_missing s r u hu]
    simp [runJoin, stepJoin, JoinThread.start, hu]
  · have hu' : (UserService.getUserById s u).isSome := by simp [hu]
    by_cases hm : (r, u) ∈ s.members
    · rw [postRoomUsers_member s r u hu' hm]
      simp [runJoin, stepJoin, JoinThread.start, hu, RoomUserService.isUserInRoom, hm]
    · rcases Option.eq_none_or_eq_some (RoomService.getRoomById s r) with
        hr | ⟨room, hr⟩
      · rw [postRoomUsers_room_missing s r u hu' hm hr]
        simp [runJoin, stepJoin, JoinThread.start, hu, RoomUserService.isUserInRoom, hm, hr]
      · by_cases hfull : room.size ≥ room.capacity
        · rw [postRoomUsers_full s r u room hu' hm hr hfull]
          simp [runJoin, stepJoin, JoinThread.start, hu, RoomUserService.isUserInRoom, hm,
            hr, hfull]
        · rw [postRoomUsers_joined s r u room hu' hm hr (not_le.mp hfull)]
          have hge : ¬ room.capacity ≤ room.size := hfull
          simp [runJoin, stepJoin, JoinThread.start, hu, RoomUserService.isUserInRoom, hm,
            hr, hge, RoomUserService.addUserToRoom, RoomService.updateRoom, Room.setSize,
            joinedResponse]

/-- A step at the position right after `pre` steps the invocation found there. -/
theorem stepAt_append (s : State) (t : JoinThread) (post : List JoinThread) :
    ∀ pre : List JoinThread,
      stepAt s (pre ++ t :: post) pre.length =
        (pre ++ (stepJoin s t).1 :: post, (stepJoin s t).2) := by
  intro pre
  induction pre with
  | nil => rfl
  | cons a pre ih =>
    show (a :: (stepAt s (pre ++ t :: post) pre.length).1,
        (stepAt s (pre ++ t :: post) pre.length).2) = _
    rw [ih]
    rfl

/-- Running two schedules one after the other. -/
theorem runSchedule_append (a b : List Nat) :
    ∀ (s : State) (ts : List JoinThread),
      runSchedule s ts (a ++ b) =
        runSchedule (runSchedule s ts a).2 (runSchedule s ts a).1 b := by
  induction a with
  | nil => intro s ts; rfl
  | cons i a ih => intro s ts; exact ih _ _

/-- Scheduling one position `n` times in a row runs that invocation `n` steps. -/
theorem runSchedule_replicate (pre post : List JoinThread) (n : Nat) :
    ∀ (s : State) (t : JoinThread),
      runSchedule s (pre ++ t :: post) (List.replicate n pre.length) =
        (pre ++ (runJoin s t n).1 :: post, (runJoin s t n).2) := by
  induction n with
  | zero => intro s t; rfl
  | succ n ih =>
    intro s t
    simp only [List.replicate_succ, runSchedule, stepAt_append, runJoin]
    exact ih _ _

/-- The answers of two pools side by side. -/
theorem answers_append (a b : List JoinThread) : answers (a ++ b) = answers a ++ answers b := by
  simp [answers, List.filterMap_append]

/-- Under the serial schedule the pool answers as `serveEach` does and leaves
the state `serveEach` leaves. -/
theorem runSchedule_serial (r : Int) (us : List Int) :
    ∀ (pre : List JoinThread) (s : State),
      answers (runSchedule s (pre ++ us.map (JoinThread.start r))
          (serialFrom pre.length us.length)).1 =
        answers pre ++ (serveEach s (joinsOf r us)).1 ∧
      (runSchedule s (pre ++ us.map (JoinThread.start r))
          (serialFrom pre.length us.length)).2 = (serveEach s (joinsOf r us)).2 := by
  induction us with
  | nil =>
    intro pre s
    simp [serialFrom, runSchedule, joinsOf, serveEach]
  | cons u rest ih =>
    intro pre s
    simp only [List.map_cons, List.length_cons, serialFrom, runSchedule_append,
      runSchedule_replicate, runJoin_alone, joinsOf, serveEach, serve]
    have hlen : (pre ++ [JoinThread.mk r u
        (JoinPc.finished (postRoomUsers s r (.ok u)).1)]).length = pre.length + 1 := by simp
    have step := ih (pre ++ [JoinThread.mk r u
        (JoinPc.finished (postRoomUsers s r (.ok u)).1)]) (postRoomUsers s r (.ok u)).2
    rw [hlen, List.append_assoc, List.singleton_append] at step
    simp only [joinsOf] at step
    rw [step.1, step.2, answers_append]
    simp [answers]


/-- Joins repeated by a member are all refused and change nothing. -/
theorem serveEach_member (r u : Int) (n : Nat) (s : State)
    (hu : (UserService.getUserById s u).isSome) (hm : (r, u) ∈ s.members) :
    serveEach s (joinsOf r (List.replicate n u)) =
      (List.replicate n (errorResponse 409 "User is already in this room"), s) := by
  induction n with
  | zero => rfl
  | succ n ih =>
    simp only [joinsOf, List.replicate_succ, List.map_cons, serveEach, serve,
      postRoomUsers_member s r u hu hm]
    simp only [joinsOf] at ih
    rw [ih]

/-- One admitted Join followed by repetitions of it. -/
theorem serveEach_same_user (r u : Int) (n : Nat) (s : State) (room : Room)
    (hu : (UserService.getUserById s u).isSome) (hm : (r, u) ∉ s.members)
    (hr : RoomService.getRoomById s r = some room) (hlt : room.size < room.capacity) :
    (serveEach s (joinsOf r (List.replicate (n + 1) u))).1 =
      joinedResponse r u (room.size + 1) ::
        List.replicate n (errorResponse 409 "User is already in this room") := by
  have hu2 : (UserService.getUserById (postRoomUsers s r (.ok u)).2 u).isSome := by
    rw [getUserById_postRoomUsers]
    exact hu
  have hm2 : (r, u) ∈ (postRoomUsers s r (.ok u)).2.members := by
    rw [postRoomUsers_joined s r u room hu hm hr hlt]
    exact Finset.mem_insert_self _ _
  have hrest := serveEach_member r u n (postRoomUsers s r (.ok u)).2 hu2 hm2
  simp only [joinsOf] at hrest
  simp only [joinsOf, List.replicate_succ, List.map_cons, serveEach, serve, hrest]
  rw [postRoomUsers_joined s r u room hu hm hr hlt]
  rfl

/-- Counting the 201 answers and the "Room is full" answers of a filled room. -/
theorem count_fill (r : Int) (l : List (Nat × Int)) (k : Nat) :
    List.countP (fun x => decide (x.code = 201))
        (l.map (fun p => joinedResponse r p.2 (p.1 : Int)) ++
          List.replicate k (errorResponse 409 "Room is full")) = l.length ∧
    List.countP (fun x => decide (x = errorResponse 409 "Room is full"))
        (l.map (fun p => joinedResponse r p.2 (p.1 : Int)) ++
          List.replicate k (errorResponse 409 "Room is full")) = k := by
  constructor
  · rw [List.countP_append]
    have h1 : List.countP (fun x => decide (x.code = 201))
        (l.map (fun p => joinedResponse r p.2 (p.1 : Int))) = l.length := by
      rw [← List.length_map l (fun p => joinedResponse r p.2 (p.1 : Int))]
      apply List.countP_eq_length.mpr
      intro a ha
      obtain ⟨p, _, rfl⟩ := List.mem_map.mp ha
      simp [joinedResponse]
    have h2 : List.countP (fun x => decide (x.code = 201))
        (List.replicate k (errorResponse 409 "Room is full")) = 0 := by
      apply List.countP_eq_zero.mpr
      intro a ha
      rw [List.eq_of_mem_replicate ha]
      simp [errorResponse]
    rw [h1, h2]
    rfl
  · rw [List.countP_append]
    have h1 : List.countP (fun x => decide (x = errorResponse 409 "Room is full"))
        (l.map (fun p => joinedResponse r p.2 (p.1 : Int))) = 0 := by
      apply List.countP_eq_zero.mpr
      intro a ha
      obtain ⟨p, _, rfl⟩ := List.mem_map.mp ha
      simp [joinedResponse, errorResponse]
    have h2 : List.countP (fun x => decide (x = errorResponse 409 "Room is full"))
        (List.replicate k (errorResponse 409 "Room is full")) = k := by
      have := List.countP_eq_length.mpr (fun a (ha : a ∈ List.replicate k
        (errorResponse 409 "Room is full")) => (by
          rw [List.eq_of_mem_replicate ha]
          simp : (fun x => decide (x = errorResponse 409 "Room is full")) a = true))
      rw [this, List.length_replicate]
    rw [h1, h2]
    simp


/-! ## The properties about concurrent requests -/

/-- C13 (atomic admission under concurrency), counterexample. The property says
that concurrent Joins never interleave, so that of c + k Joins by distinct users
on an empty room of capacity c exactly c succeed, and of several Joins by one
user exactly one succeeds. In `boothState` (capacity 1, no member) two
invocations that both make their reads before either writes are both answered
201: for the distinct users 7 and 8 the room ends with two members and stored
size 1, and for user 7 twice both invocations succeed as well. -/
theorem concurrent_joins_counterexample :
    ((UserService.getUserById boothState 7).isSome ∧
      (UserService.getUserById boothState 8).isSome ∧
      RoomService.getRoomById boothState 3 = some booth ∧
      booth.capacity = 1 ∧ booth.size = 0 ∧ memberCount boothState 3 = 0) ∧
    (answers (runSchedule boothState [JoinThread.start 3 7, JoinThread.start 3 8]
        overlapSchedule).1 = [joinedResponse 3 7 1, joinedResponse 3 8 1] ∧
      memberCount (runSchedule boothState [JoinThread.start 3 7, JoinThread.start 3 8]
        overlapSchedule).2 3 = 2 ∧
      (runSchedule boothState [JoinThread.start 3 7, JoinThread.start 3 8]
        overlapSchedule).2.rooms = [booth.setSize 1]) ∧
    answers (runSchedule boothState [JoinThread.start 3 7, JoinThread.start 3 7]
        overlapSchedule).1 = [joinedResponse 3 7 1, joinedResponse 3 7 1] := by
  decide

/-- C13, amended. When the invocations are served one after another (each runs
its steps to the end before the next starts): of c + k Joins by pairwise
distinct existing users on an existing room of capacity c with occupancy 0 and
no members, exactly c are answered 201 and exactly k are answered 409 "Room is
full"; and of n + 1 Joins of that room (c at least 1) by one existing user, the
first is answered 201 and the n others 409 "User is already in this room". -/
theorem serial_admission (s : State) (r : Int) (room : Room) (us : List Int) (c k : Nat)
    (u : Int) (n : Nat)
    (hr : RoomService.getRoomById s r = some room)
    (hcap : room.capacity = (c : Int))
    (hsize : room.size = 0)
    (hempty : ∀ v, (r, v) ∉ s.members)
    (hdistinct : us.Nodup)
    (hexist : ∀ v ∈ us, (UserService.getUserById s v).isSome)
    (hlen : us.length = c + k)
    (hc : 1 ≤ c)
    (hu : (UserService.getUserById s u).isSome) :
    (List.countP (fun x => decide (x.code = 201))
        (answers (runSchedule s (us.map (JoinThread.start r))
          (serialFrom 0 us.length)).1) = c ∧
      List.countP (fun x => decide (x = errorResponse 409 "Room is full"))
        (answers (runSchedule s (us.map (JoinThread.start r))
          (serialFrom 0 us.length)).1) = k) ∧
    answers (runSchedule s ((List.replicate (n + 1) u).map (JoinThread.start r))
        (serialFrom 0 (n + 1))).1 =
      joinedResponse r u 1 ::
        List.replicate n (errorResponse 409 "User is already in this room") := by
  constructor
  · have hserial := (runSchedule_serial r us [] s).1
    have hfill := (serveEach_fill r c us s room 0 hr (by simpa using hsize) hcap
      (Nat.zero_le c) (fun v _ => hempty v) hdistinct hexist).1
    have hk : us.length - c = k := by omega
    have htake : ((us.take c).enumFrom 1).length = c := by
      rw [List.enumFrom_length, List.length_take]
      omega
    rw [Nat.sub_zero, hk] at hfill
    simp only [List.nil_append, List.length_nil] at hserial
    have hanswers : answers [] = [] := rfl
    rw [hanswers, List.nil_append, hfill] at hserial
    rw [hserial]
    have hcount := count_fill r ((us.take c).enumFrom 1) k
    rw [htake] at hcount
    exact hcount
  · have hserial := (runSchedule_serial r (List.replicate (n + 1) u) [] s).1
    have hlt : room.size < room.capacity := by
      rw [hsize, hcap]
      exact_mod_cast hc
    have hsame := serveEach_same_user r u n s room hu (hempty u) hr hlt
    simp only [List.nil_append, List.length_nil, List.length_replicate] at hserial
    have hanswers : answers [] = [] := rfl
    rw [hanswers, List.nil_append, hsame, hsize] at hserial
    exact hserial

/-- Scenario A served serially, and `alice` asking three times. -/
theorem serial_admission_witness :
    (RoomService.getRoomById hallState 4 = some hall ∧ hall.capacity = ((2 : Nat) : Int) ∧
      hall.size = 0 ∧ [(7 : Int), 8, 9].Nodup ∧ [(7 : Int), 8, 9].length = 2 + 1 ∧
      1 ≤ 2 ∧ (UserService.getUserById hallState 7).isSome) ∧
    ((List.countP (fun x => decide (x.code = 201))
          (answers (runSchedule hallState (([7, 8, 9] : List Int).map (JoinThread.start 4))
            (serialFrom 0 ([7, 8, 9] : List Int).length)).1) = 2 ∧
        List.countP (fun x => decide (x = errorResponse 409 "Room is full"))
          (answers (runSchedule hallState (([7, 8, 9] : List Int).map (JoinThread.start 4))
            (serialFrom 0 ([7, 8, 9] : List Int).length)).1) = 1) ∧
      answers (runSchedule hallState ((List.replicate (2 + 1) (7 : Int)).map
          (JoinThread.start 4)) (serialFrom 0 (2 + 1))).1 =
        joinedResponse 4 7 1 ::
          List.replicate 2 (errorResponse 409 "User is already in this room")) :=
  ⟨by decide,
   serial_admission hallState 4 hall [7, 8, 9] 2 1 7 2 (by decide) (by decide) (by decide)
     (fun _ => Finset.not_mem_empty _) (by decide) (by decide) (by decide) (by decide)
     (by decide)⟩

/-- C14 (no orphaned reservation). The property: a Join that passes the user,
membership, room and capacity checks but whose insert fails returns an error
and leaves the stored occupancy as it was. In `hallState` two invocations ask
to join user 7 to room 4 under `resumeSchedule`: the second has passed all four
checks and holds the room at size 1 when its `addUserToRoom` returns false (the
first has stored the pair meanwhile). The result is discarded at line 447: the
second invocation stores size 2 and answers 201, and the room ends with stored
size 2 and one member. -/
theorem failed_insert_still_counted :
    (runSchedule hallState [JoinThread.start 4 7, JoinThread.start 4 7] resumeSchedule).1 =
      [JoinThread.mk 4 7 (JoinPc.finished (joinedResponse 4 7 1)),
       JoinThread.mk 4 7 (JoinPc.atInsert (hall.setSize 1))] ∧
    (RoomService.getRoomById (runSchedule hallState
        [JoinThread.start 4 7, JoinThread.start 4 7] resumeSchedule).2 4).map Room.size =
      some 1 ∧
    (RoomUserService.addUserToRoom (runSchedule hallState
        [JoinThread.start 4 7, JoinThread.start 4 7] resumeSchedule).2 7 4).1 = false ∧
    answers (runSchedule hallState [JoinThread.start 4 7, JoinThread.start 4 7]
        (resumeSchedule ++ [1, 1, 1])).1 = [joinedResponse 4 7 1, joinedResponse 4 7 2] ∧
    (RoomService.getRoomById (runSchedule hallState
        [JoinThread.start 4 7, JoinThread.start 4 7] (resumeSchedule ++ [1, 1, 1])).2 4).map
      Room.size = some 2 ∧
    memberCount (runSchedule hallState [JoinThread.start 4 7, JoinThread.start 4 7]
        (resumeSchedule ++ [1, 1, 1])).2 4 = 1 := by
  decide

end GTUVerse
